import Mathlib

/-!
Verification of the job-orchestration layer of the beets-replacement backend
(`src/backend/app.py` and `src/scripts/fetch_cover.py`).

Timestamps are embedded as integers, payloads and byte blobs as abstract data,
external commands as explicit environment parameters, and the thread-shared
mutable globals of the backend as explicit state records threaded through the
step functions.  Each definition carries a reference to the source code it
embeds.
-/

namespace BeetsOrch

/-! ## Work queues with dedup guards

The backend keeps four queues (`inbox_q`, `lib_q`, `cover_q`, `lyrics_q`)
each paired with a guard set (`inbox_queued`, `lib_queued`, `cover_queued`,
`lyrics_queued`) that marks targets already holding a pending item. -/

/-- A work queue together with its dedup-guard set.  `items` is the list of
pending items in arrival order; `guard` is the set of targets currently marked
pending (a Python `set`, kept here as a list). -/
structure GuardedQueue (ι α : Type) where
  items : List ι
  guard : List α

/-- Guarded enqueue as coded in `InboxHandler.on_created`,
`LibraryHandler.on_created`, `CoverHandler.on_created`,
`scan_for_missing_lyrics` and the 429 requeue branch of `lyrics_worker`:
the item is appended, and its target added to the guard set, only when the
target is not already guarded. -/
def enqueueGuarded {ι α : Type} [DecidableEq α] (tgt : ι → α)
    (s : GuardedQueue ι α) (x : ι) : GuardedQueue ι α :=
  if tgt x ∈ s.guard then s else ⟨s.items ++ [x], tgt x :: s.guard⟩

/-- Repeated guarded enqueue of a burst of notifications. -/
def enqueueAll {ι α : Type} [DecidableEq α] (tgt : ι → α)
    (s : GuardedQueue ι α) (xs : List ι) : GuardedQueue ι α :=
  xs.foldl (enqueueGuarded tgt) s

/-- FIFO dequeue followed by a guard discard, as in `cover_worker`
(`cover_q.get` then `cover_queued.discard(album_dir)`). -/
def dequeueDiscard {ι α : Type} [DecidableEq α] (tgt : ι → α)
    (s : GuardedQueue ι α) : Option ι × GuardedQueue ι α :=
  match s.items with
  | [] => (none, s)
  | x :: rest => (some x, ⟨rest, (s.guard).erase (tgt x)⟩)

/-- Drain-and-clear dequeue, as in `inbox_worker` and `library_worker`:
after the settling timer the whole queue is drained and the guard set is
cleared. -/
def drainClear {ι α : Type} (_s : GuardedQueue ι α) : GuardedQueue ι α :=
  ⟨[], []⟩

/-- Invariant maintained by all four queues: pending items carry pairwise
distinct targets, and every pending target sits in the guard set. -/
def QueueInv {ι α : Type} [DecidableEq α] (tgt : ι → α)
    (s : GuardedQueue ι α) : Prop :=
  (s.items.map tgt).Nodup ∧ ∀ x ∈ s.items, tgt x ∈ s.guard

/-- Number of pending items of a queue whose target is `t`. -/
def pendingCount {ι α : Type} [DecidableEq α] (tgt : ι → α)
    (s : GuardedQueue ι α) (t : α) : Nat :=
  (s.items.map tgt).count t

/-! ## The lyrics priority queue

`lyrics_q` is a `PriorityQueue` of tuples `(priority, enqueued_at, track)`,
which Python orders lexicographically; popping always yields the least
tuple. -/

/-- One entry of `lyrics_q`: the tuple `(priority, time.time(), track_path)`
put by `scan_for_missing_lyrics` and by the requeue branch of
`lyrics_worker`. -/
structure LyricsItem where
  priority : Int
  enqueuedAt : Int
  track : String
deriving DecidableEq, Repr

/-- Python string comparison: code-point lexicographic order on the character
sequences. -/
def charListLe : List Char → List Char → Bool
  | [], _ => true
  | _ :: _, [] => false
  | a :: as, b :: bs =>
    if a < b then true
    else if b < a then false
    else charListLe as bs

/-- Python tuple comparison on `(priority, enqueued_at, track)`: lexicographic,
with the track path as final tie break. -/
def itemLe (a b : LyricsItem) : Prop :=
  a.priority < b.priority ∨ (a.priority = b.priority ∧
    (a.enqueuedAt < b.enqueuedAt ∨ (a.enqueuedAt = b.enqueuedAt ∧
      charListLe a.track.toList b.track.toList = true)))

instance : DecidableRel itemLe := fun a b =>
  inferInstanceAs (Decidable (a.priority < b.priority ∨ (a.priority = b.priority ∧
    (a.enqueuedAt < b.enqueuedAt ∨ (a.enqueuedAt = b.enqueuedAt ∧
      charListLe a.track.toList b.track.toList = true)))))

instance : IsTotal LyricsItem itemLe := by
  constructor
  have key : ∀ x y : List Char, charListLe x y = true ∨ charListLe y x = true := by
    intro x
    induction x with
    | nil => intro y; left; rfl
    | cons a as ih =>
      intro y
      cases y with
      | nil => right; rfl
      | cons b bs =>
        rcases lt_trichotomy a b with h | h | h
        · left; simp [charListLe, h]
        · subst h
          rcases ih bs with h2 | h2
          · left; simp [charListLe, lt_irrefl, h2]
          · right; simp [charListLe, lt_irrefl, h2]
        · right; simp [charListLe, h]
  intro a b
  unfold itemLe
  rcases lt_trichotomy a.priority b.priority with h | h | h
  · left; left; exact h
  · rcases lt_trichotomy a.enqueuedAt b.enqueuedAt with h2 | h2 | h2
    · left; right; exact ⟨h, Or.inl h2⟩
    · rcases key a.track.toList b.track.toList with h3 | h3
      · left; right; exact ⟨h, Or.inr ⟨h2, h3⟩⟩
      · right; right; exact ⟨h.symm, Or.inr ⟨h2.symm, h3⟩⟩
    · right; right; exact ⟨h.symm, Or.inl h2⟩
  · right; left; exact h

instance : IsTrans LyricsItem itemLe := by
  constructor
  have key : ∀ x y z : List Char,
      charListLe x y = true → charListLe y z = true → charListLe x z = true := by
    intro x
    induction x with
    | nil => intro y z _ _; rfl
    | cons a as ih =>
      intro y z hxy hyz
      cases y with
      | nil => simp [charListLe] at hxy
      | cons b bs =>
        cases z with
        | nil => simp [charListLe] at hyz
        | cons c cs =>
          simp only [charListLe] at hxy hyz ⊢
          by_cases hab : a < b
          · by_cases hbc : b < c
            · have hac : a < c := lt_trans hab hbc
              simp [hac]
            · by_cases hcb : c < b
              · simp [hbc, hcb] at hyz
              · have hbc2 : b = c := le_antisymm (not_lt.mp hcb) (not_lt.mp hbc)
                subst hbc2
                simp [hab]
          · by_cases hba : b < a
            · simp [hab, hba] at hxy
            · have hab2 : a = b := le_antisymm (not_lt.mp hba) (not_lt.mp hab)
              subst hab2
              simp only [lt_irrefl, if_false] at hxy
              by_cases hbc : a < c
              · simp [hbc]
              · by_cases hcb : c < a
                · simp [hbc, hcb] at hyz
                · simp only [hbc, hcb, if_false] at hyz ⊢
                  exact ih bs cs hxy hyz
  intro a b c hab hbc
  unfold itemLe at *
  rcases hab with h1 | ⟨e1, h1⟩
  · rcases hbc with h2 | ⟨e2, _⟩
    · exact Or.inl (lt_trans h1 h2)
    · exact Or.inl (e2 ▸ h1)
  · rcases hbc with h2 | ⟨e2, h2⟩
    · exact Or.inl (e1 ▸ h2)
    · refine Or.inr ⟨e1.trans e2, ?_⟩
      rcases h1 with h1 | ⟨f1, h1⟩
      · rcases h2 with h2 | ⟨f2, _⟩
        · exact Or.inl (lt_trans h1 h2)
        · exact Or.inl (f2 ▸ h1)
      · rcases h2 with h2 | ⟨f2, h2⟩
        · exact Or.inl (f1 ▸ h2)
        · exact Or.inr ⟨f1.trans f2, key _ _ _ h1 h2⟩

/-- The order in which the `PriorityQueue` hands out its contents: the least
tuple first.  Draining the queue yields its contents in sorted tuple order. -/
def sortedQueue (q : List LyricsItem) : List LyricsItem :=
  List.insertionSort itemLe q

/-- One `lyrics_q.get()`: pop the least tuple, leaving the rest. -/
def popMinItem (q : List LyricsItem) : Option (LyricsItem × List LyricsItem) :=
  match sortedQueue q with
  | [] => none
  | x :: rest => some (x, rest)

/-- Dequeue of the lyrics queue followed by the guard discard
(`lyrics_q.get` then `lyrics_queued.discard(track_path)` in
`lyrics_worker`). -/
def dequeueMinDiscard (s : GuardedQueue LyricsItem String) :
    Option LyricsItem × GuardedQueue LyricsItem String :=
  match popMinItem s.items with
  | none => (none, s)
  | some (x, rest) => (some x, ⟨rest, (s.guard).erase x.track⟩)

/-! ## Lyrics rate limiter and worker

Embeds `can_make_lyrics_request`, `record_lyrics_request`, `record_lyrics_429`
and the loop body of `lyrics_worker`.  The thread-shared globals
(`lyrics_q`, `lyrics_queued`, `lyrics_failed_tracks`, `lyrics_request_times`,
`lyrics_last_429`) become one explicit state record. -/

/-- `LYRICS_RATE_LIMIT = 10` in the configuration block. -/
def LYRICS_RATE_LIMIT : Nat := 10

/-- `LYRICS_RETRY_DELAY = 60` in the configuration block. -/
def LYRICS_RETRY_DELAY : Int := 60

/-- `LYRICS_MAX_RETRIES = 3` in the configuration block. -/
def LYRICS_MAX_RETRIES : Nat := 3

/-- The mutable globals of the lyrics domain. -/
structure LyricsState where
  queue : List LyricsItem
  queued : List String
  failed : List (String × Nat)
  requestTimes : List Int
  last429 : Option Int

/-- Lookup in `lyrics_failed_tracks` with default 0
(`lyrics_failed_tracks.get(track_path, 0)`). -/
def lookupFailed (failed : List (String × Nat)) (track : String) : Nat :=
  match failed.find? (fun p => decide (p.1 = track)) with
  | some p => p.2
  | none => 0

/-- Assignment `lyrics_failed_tracks[track_path] = n`. -/
def setFailed (failed : List (String × Nat)) (track : String) (n : Nat) :
    List (String × Nat) :=
  (track, n) :: failed.filter (fun p => decide (p.1 ≠ track))

/-- Removal `lyrics_failed_tracks.pop(track_path, None)`. -/
def removeFailed (failed : List (String × Nat)) (track : String) :
    List (String × Nat) :=
  failed.filter (fun p => decide (p.1 ≠ track))

/-- Substring containment, the Python `in` operator on strings. -/
def strContains (s pat : String) : Bool :=
  decide (pat.toList <:+: s.toList)

/-- ASCII lower-casing of one character, modelling the Python `str.lower`
method on the ASCII outputs the worker inspects. -/
def lowerChar (c : Char) : Char :=
  if Char.ofNat 65 ≤ c ∧ c ≤ Char.ofNat 90 then Char.ofNat (c.toNat + 32) else c

/-- Substring containment against the lower-cased text,
`pat in s.lower()`. -/
def strContainsLower (s pat : String) : Bool :=
  decide (pat.toList <:+: s.toList.map lowerChar)

/-- Classification of the external tool output as a quota-exceeded signal:
`"429" in result.stdout or "Too Many Requests" in result.stdout`. -/
def isQuotaExceeded (out : String) : Bool :=
  strContains out "429" || strContains out "Too Many Requests"

/-- The cooldown clause of `can_make_lyrics_request`:
`lyrics_last_429 and (now - lyrics_last_429) < LYRICS_RETRY_DELAY`. -/
def cooldownActive (last429 : Option Int) (now : Int) : Bool :=
  match last429 with
  | some t => decide (now - t < LYRICS_RETRY_DELAY)
  | none => false

/-- `can_make_lyrics_request`: returns the admission verdict together with the
state, whose `lyrics_request_times` list is pruned to the trailing 60 second
window when no cooldown is active (the Python function rewrites the global
list in place). -/
def canMakeLyricsRequest (s : LyricsState) (now : Int) : Bool × LyricsState :=
  if cooldownActive s.last429 now then (false, s)
  else
    let pruned := s.requestTimes.filter (fun t => decide (now - t < 60))
    (decide (pruned.length < LYRICS_RATE_LIMIT),
     { s with requestTimes := pruned })

/-- What the external world answers for a given track during one iteration:
whether the file exists (`os.path.exists`), whether it already carries lyrics
(`check_track_has_lyrics`), and the `subprocess.run` result of the
`beet lyrics` invocation. -/
structure TrackEnv where
  trackExists : Bool
  hasLyrics : Bool
  fetchReturncode : Int
  fetchStdout : String

/-- Observable outcome of one `lyrics_worker` iteration. -/
inductive LyricsEvent
  | deferred
  | idle
  | droppedMissing (track : String)
  | skippedHasLyrics (track : String)
  | skippedMaxRetries (track : String)
  | fetched (track : String)
deriving DecidableEq, Repr

/-- Body of `lyrics_worker` after an item has been popped and its guard entry
discarded: the existence, has-lyrics and retry-ceiling checks, then the fetch
with its result classification (429 requeue, success, or failure
bookkeeping). -/
def processLyricsItem (s : LyricsState) (item : LyricsItem) (now : Int)
    (e : TrackEnv) : LyricsState × LyricsEvent :=
  if e.trackExists = false then (s, .droppedMissing item.track)
  else if e.hasLyrics = true then (s, .skippedHasLyrics item.track)
  else if LYRICS_MAX_RETRIES ≤ lookupFailed s.failed item.track then
    (s, .skippedMaxRetries item.track)
  else if isQuotaExceeded e.fetchStdout = true then
    (if item.track ∈ s.queued then
      { queue := s.queue
        queued := s.queued
        failed := setFailed s.failed item.track
          (lookupFailed s.failed item.track + 1)
        requestTimes := s.requestTimes ++ [now]
        last429 := some now }
     else
      { queue := s.queue ++ [⟨item.priority + 1, now, item.track⟩]
        queued := item.track :: s.queued
        failed := setFailed s.failed item.track
          (lookupFailed s.failed item.track + 1)
        requestTimes := s.requestTimes ++ [now]
        last429 := some now },
     .fetched item.track)
  else if e.fetchReturncode = 0 ∨
      strContainsLower e.fetchStdout "lyrics found" = true then
    ({ queue := s.queue
       queued := s.queued
       failed := removeFailed s.failed item.track
       requestTimes := s.requestTimes ++ [now]
       last429 := s.last429 },
     .fetched item.track)
  else if strContainsLower e.fetchStdout "not found" = false then
    ({ queue := s.queue
       queued := s.queued
       failed := setFailed s.failed item.track
         (lookupFailed s.failed item.track + 1)
       requestTimes := s.requestTimes ++ [now]
       last429 := s.last429 },
     .fetched item.track)
  else
    ({ queue := s.queue
       queued := s.queued
       failed := s.failed
       requestTimes := s.requestTimes ++ [now]
       last429 := s.last429 },
     .fetched item.track)

/-- One iteration of the `lyrics_worker` loop: the rate-limit gate (deferring,
not dropping, when it denies), then the pop, the guard discard, and the item
processing. -/
def lyricsStep (s0 : LyricsState) (now : Int) (env : String → TrackEnv) :
    LyricsState × LyricsEvent :=
  if (canMakeLyricsRequest s0 now).1 = false then
    ((canMakeLyricsRequest s0 now).2, .deferred)
  else
    match popMinItem (canMakeLyricsRequest s0 now).2.queue with
    | none => ((canMakeLyricsRequest s0 now).2, .idle)
    | some (item, rest) =>
      processLyricsItem
        { (canMakeLyricsRequest s0 now).2 with
            queue := rest
            queued := ((canMakeLyricsRequest s0 now).2.queued).erase item.track }
        item now (env item.track)

/-- A whole run of the worker over a list of iterations, each with its clock
reading and external environment; returns the final state and the event
trace. -/
def lyricsRun (s : LyricsState) :
    List (Int × (String → TrackEnv)) → LyricsState × List LyricsEvent
  | [] => (s, [])
  | (now, env) :: rest =>
    let r := lyricsStep s now env
    let f := lyricsRun r.1 rest
    (f.1, r.2 :: f.2)

/-! ## Import lease and inbox worker

Embeds `FileLock.try_acquire` and the post-settling body of `inbox_worker`.
The advisory `flock` is abstracted into an oracle `free : Nat → Bool` telling
whether the lock is free of other holders at the k-th non-blocking attempt. -/

/-- The polling loop of `FileLock.try_acquire` for a positive timeout:
a non-blocking `flock` attempt, then a half-second sleep, repeated until the
deadline.  Returns success and the number of half-second sleeps performed. -/
def tryAcquirePoll (free : Nat → Bool) : Nat → Nat → Bool × Nat
  | _, 0 => (false, 0)
  | i, fuel + 1 =>
    if free i then (true, 0)
    else
      let r := tryAcquirePoll free (i + 1) fuel
      (r.1, r.2 + 1)

/-- `FileLock.try_acquire(timeout)`: with `timeout > 0` the non-blocking
attempt is retried every half second until the deadline (`2 * timeout`
attempts); with `timeout = 0` a single non-blocking attempt decides the
outcome at once.  The second component counts the half-second sleeps, so a
result `(b, 0)` means the call returned without blocking. -/
def tryAcquire (free : Nat → Bool) (timeout : Nat) : Bool × Nat :=
  if 0 < timeout then tryAcquirePoll free 0 (2 * timeout)
  else (free 0, 0)

/-- Observable outcome of the part of `inbox_worker` that runs once the
settling timer has elapsed and the queue and dedup set were cleared. -/
structure InboxRunResult where
  importInvoked : Bool
  logs : List (String × String)
  requeued : Bool
  libEnqueued : Bool
deriving DecidableEq, Repr

/-- Post-settling body of `inbox_worker`: try the import lease with
`timeout=0`; on failure log a warning and drop the work item (`continue`);
on success run the import command and, when it exits 0, invalidate the inbox
cache and enqueue a library regeneration. -/
def inboxProcess (free : Nat → Bool) (importOk : Bool) (importOut : String) :
    InboxRunResult :=
  if (tryAcquire free 0).1 = false then
    { importInvoked := false
      logs := [("warning", "Import already in progress - skipping")]
      requeued := false
      libEnqueued := false }
  else if importOk then
    { importInvoked := true
      logs := [("info", "Starting automatic inbox import (after settling)"),
               ("success", "Automatic import completed")]
      requeued := false
      libEnqueued := true }
  else
    { importInvoked := true
      logs := [("info", "Starting automatic inbox import (after settling)"),
               ("error", String.append "Import failed: " importOut)]
      requeued := false
      libEnqueued := false }

/-! ## Library stats cache

Embeds `get_library_stats` and `invalidate_library_stats_cache`.  The pair of
globals `library_stats_cache` / `library_stats_cache_time` becomes a record;
the expensive recomputation (several `beet` invocations) enters as the
parameter `fresh`. -/

/-- `LIBRARY_STATS_CACHE_SECONDS = 300`. -/
def LIBRARY_STATS_CACHE_SECONDS : Int := 300

/-- The cache cell: `library_stats_cache` and `library_stats_cache_time`. -/
structure CacheState (α : Type) where
  cache : Option α
  cacheTime : Option Int
deriving DecidableEq, Repr

/-- The fresh-enough test of `get_library_stats`: a payload is served from
cache when both globals are set and the age is below the TTL. -/
def cachedPayload {α : Type} (s : CacheState α) (now : Int) : Option α :=
  match s.cache, s.cacheTime with
  | some p, some t =>
    if now - t < LIBRARY_STATS_CACHE_SECONDS then some p else none
  | _, _ => none

/-- `get_library_stats(force_refresh)`: serve the cached payload unless it is
absent, expired, or a refresh is forced; otherwise recompute, store the new
payload with the current timestamp, and return it. -/
def getLibraryStats {α : Type} (s : CacheState α) (now : Int)
    (forceRefresh : Bool) (fresh : α) : α × CacheState α :=
  match (if forceRefresh then none else cachedPayload s now) with
  | some p => (p, s)
  | none => (fresh, ⟨some fresh, some now⟩)

/-- `invalidate_library_stats_cache`: both globals are reset to `None`
whenever the cache holds a payload; with an empty cache the call leaves the
state untouched. -/
def invalidateLibraryStatsCache {α : Type} (s : CacheState α) : CacheState α :=
  if s.cache.isSome then ⟨none, none⟩ else s

/-! ## Event log

Embeds `add_watcher_log` and `get_recent_logs`.  The list `watcher_logs`
keeps the newest entry at the head; `last_log_id` only ever increases. -/

/-- `MAX_WATCHER_LOGS = 100`. -/
def MAX_WATCHER_LOGS : Nat := 100

/-- One element of `watcher_logs`. -/
structure LogEntry where
  id : Nat
  timestamp : Int
  level : String
  message : String
deriving DecidableEq, Repr

/-- The globals `watcher_logs` (newest first) and `last_log_id`. -/
structure LogState where
  logs : List LogEntry
  lastId : Nat
deriving DecidableEq, Repr

/-- `add_watcher_log(level, message)`: bump `last_log_id`, insert the new
entry at the head, and pop the last (oldest) entry when the bound is
exceeded. -/
def addWatcherLog (s : LogState) (ts : Int) (level message : String) :
    LogState :=
  ⟨if MAX_WATCHER_LOGS <
      ((⟨s.lastId + 1, ts, level, message⟩ : LogEntry) :: s.logs).length then
    ((⟨s.lastId + 1, ts, level, message⟩ : LogEntry) :: s.logs).dropLast
   else (⟨s.lastId + 1, ts, level, message⟩ : LogEntry) :: s.logs,
   s.lastId + 1⟩

/-- `get_recent_logs(since_id, limit)`: the first `limit` stored entries when
`since_id` is absent, otherwise the first `limit` entries with a strictly
larger id. -/
def getRecentLogs (s : LogState) (sinceId : Option Nat) (limit : Nat) :
    List LogEntry :=
  match sinceId with
  | none => s.logs.take limit
  | some i => (s.logs.filter (fun l => decide (i < l.id))).take limit

/-- Invariant of the log state: ids strictly decrease from the head (newest
first, never reused), no id exceeds the counter, and the buffer respects its
bound. -/
def LogInv (s : LogState) : Prop :=
  List.Pairwise (fun a b => b.id < a.id) s.logs ∧
  (∀ e ∈ s.logs, e.id ≤ s.lastId) ∧
  s.logs.length ≤ MAX_WATCHER_LOGS

/-! ## Library file serving

Embeds `serve_library_file`.  Paths are embedded as their component lists, the
representation `pathlib` itself uses; `resolve()` becomes pure component
normalisation (symbolic links are not modelled); the filesystem check
`requested.exists() and requested.is_file()` becomes an oracle. -/

/-- Components of the base directory `/music/library`. -/
def LIBRARY_BASE : List String := ["music", "library"]

/-- Component normalisation performed by `Path.resolve()` on an absolute
path: empty and `.` components vanish, `..` removes the preceding component
and at the root stays at the root. -/
def resolveComponents (comps : List String) : List String :=
  comps.foldl
    (fun acc c =>
      if c = "" ∨ c = "." then acc
      else if c = ".." then acc.dropLast
      else acc ++ [c])
    []

/-- The `full_path` captured by the route, already split into components as
`pathlib` stores it: `absolute` records a leading slash, in which case the
join `base / full_path` discards the base entirely. -/
structure RequestPath where
  absolute : Bool
  comps : List String

/-- The components of `base / full_path` under the `pathlib` join rules. -/
def joinedWithBase (p : RequestPath) : List String :=
  if p.absolute then p.comps else LIBRARY_BASE ++ p.comps

/-- Outcome of the route handler. -/
inductive ServeResult
  | served (p : List String)
  | forbidden
  | notFound
deriving DecidableEq, Repr

/-- `serve_library_file`: resolve `base / full_path`; answer 403 when the
resolved path does not lie under the base (`relative_to` raises), 404 when it
is not an existing regular file, and the file contents otherwise. -/
def serveLibraryFile (p : RequestPath) (isFile : List String → Bool) :
    ServeResult :=
  if LIBRARY_BASE <+: resolveComponents (joinedWithBase p) then
    if isFile (resolveComponents (joinedWithBase p)) then
      .served (resolveComponents (joinedWithBase p))
    else .notFound
  else .forbidden

/-! ## Cover fetch script

Embeds `main` and `write_atomic` of `src/scripts/fetch_cover.py`.  The three
information sources (Cover Art Archive response, embedded artwork, existing
local image file) enter as an environment record; filesystem writes are
recorded as an operation trace. -/

/-- Environment of one `fetch_cover.py` run: whether `cover.jpg` already
exists, the MusicBrainz release id reported by `beet list`, and what each of
the three sources would yield for this album directory. -/
structure CoverEnv where
  coverExists : Bool
  mbAlbumid : Option String
  caaData : Option (List Nat)
  embeddedData : Option (List Nat)
  localImageData : Option (List Nat)

/-- Filesystem write operations the script can perform on the album
directory. -/
inductive FsOp
  | writeTemp (path : String) (data : List Nat)
  | rename (src dst : String)
  | writeDirect (path : String) (data : List Nat)
deriving DecidableEq, Repr

/-- `write_atomic(target, data)`: write the bytes to a fresh temporary file in
the same directory, then `os.replace` it onto the target. -/
def writeAtomic (target : String) (data : List Nat) : List FsOp :=
  [FsOp.writeTemp ".cover_tmp_.jpg" data,
   FsOp.rename ".cover_tmp_.jpg" target]

/-- Which source won. -/
inductive CoverSource
  | archive
  | embedded
  | localImage
deriving DecidableEq, Repr

/-- Stage one of `main`: only when `beet list` reported a release id is the
Cover Art Archive consulted, and its response used if any. -/
def coverStage1 (env : CoverEnv) : Option (List Nat) :=
  match env.mbAlbumid with
  | some _ => env.caaData
  | none => none

/-- `main` of `fetch_cover.py`: exit early when the cover already exists;
otherwise try the Cover Art Archive (given a release id), then embedded
artwork, then an existing conventionally-named image, writing the first hit
atomically to `cover.jpg`. -/
def fetchCoverMain (env : CoverEnv) : Option CoverSource × List FsOp :=
  if env.coverExists then (none, [])
  else
    match coverStage1 env with
    | some d => (some .archive, writeAtomic "cover.jpg" d)
    | none =>
      match env.embeddedData with
      | some d => (some .embedded, writeAtomic "cover.jpg" d)
      | none =>
        match env.localImageData with
        | some d => (some .localImage, writeAtomic "cover.jpg" d)
        | none => (none, [])

/-- Modelled from the spec (for comparison only): the fallback chain in the
order section 4.6 of the specification states it — local conventionally-named
images first, then embedded artwork, then the remote art archive keyed by the
release id. -/
def specOrderCoverChain (env : CoverEnv) : Option CoverSource × List FsOp :=
  if env.coverExists then (none, [])
  else
    match env.localImageData with
    | some d => (some .localImage, writeAtomic "cover.jpg" d)
    | none =>
      match env.embeddedData with
      | some d => (some .embedded, writeAtomic "cover.jpg" d)
      | none =>
        match coverStage1 env with
        | some d => (some .archive, writeAtomic "cover.jpg" d)
        | none => (none, [])

/-! ## Theorems -/

theorem queueInv_enqueue {ι α : Type} [DecidableEq α] (tgt : ι → α)
    (s : GuardedQueue ι α) (x : ι) (h : QueueInv tgt s) :
    QueueInv tgt (enqueueGuarded tgt s x) := by
  obtain ⟨hnd, hsub⟩ := h
  unfold enqueueGuarded
  split
  · exact ⟨hnd, hsub⟩
  · next hg =>
    refine ⟨?_, ?_⟩
    · simp only [List.map_append, List.map_cons, List.map_nil]
      refine hnd.append (List.nodup_singleton _) ?_
      intro b hb hb2
      simp only [List.mem_singleton] at hb2
      subst hb2
      obtain ⟨y, hy, hyx⟩ := List.mem_map.mp hb
      exact hg (hyx ▸ hsub y hy)
    · intro y hy
      rcases List.mem_append.mp hy with h1 | h1
      · exact List.mem_cons_of_mem _ (hsub y h1)
      · simp only [List.mem_singleton] at h1
        subst h1
        exact List.mem_cons_self _ _

theorem queueInv_dequeueDiscard {ι α : Type} [DecidableEq α] (tgt : ι → α)
    (s : GuardedQueue ι α) (h : QueueInv tgt s) :
    QueueInv tgt (dequeueDiscard tgt s).2 := by
  obtain ⟨hnd, hsub⟩ := h
  rcases hs : s.items with _ | ⟨x, rest⟩
  · simpa [dequeueDiscard, hs] using ⟨hnd, hsub⟩
  · rw [hs] at hnd hsub
    simp only [dequeueDiscard, hs, List.map_cons, List.nodup_cons] at hnd ⊢
    refine ⟨hnd.2, ?_⟩
    intro y hy
    have hyg : tgt y ∈ s.guard := hsub y (List.mem_cons_of_mem _ hy)
    have hne : tgt y ≠ tgt x := by
      intro he
      exact hnd.1 (he ▸ List.mem_map_of_mem tgt hy)
    exact (List.mem_erase_of_ne hne).mpr hyg

theorem queueInv_dequeueMinDiscard (s : GuardedQueue LyricsItem String)
    (h : QueueInv LyricsItem.track s) :
    QueueInv LyricsItem.track (dequeueMinDiscard s).2 := by
  obtain ⟨hnd, hsub⟩ := h
  rcases hq : popMinItem s.items with _ | ⟨x, rest⟩
  · simpa [dequeueMinDiscard, hq] using ⟨hnd, hsub⟩
  · have hperm : x :: rest = sortedQueue s.items := by
      unfold popMinItem at hq
      rcases hsq : sortedQueue s.items with _ | ⟨a, b⟩ <;> rw [hsq] at hq
      · exact absurd hq (by simp)
      · simp only [Option.some.injEq, Prod.mk.injEq] at hq
        rw [hq.1, hq.2]
    have hperm2 : (x :: rest).Perm s.items := by
      rw [hperm]
      exact List.perm_insertionSort itemLe s.items
    have hndc : ((x :: rest).map LyricsItem.track).Nodup :=
      ((hperm2.map LyricsItem.track).nodup_iff).mpr hnd
    simp only [List.map_cons, List.nodup_cons] at hndc
    simp only [dequeueMinDiscard, hq]
    refine ⟨hndc.2, ?_⟩
    intro y hy
    have hys : y ∈ s.items := hperm2.mem_iff.mp (List.mem_cons_of_mem _ hy)
    have hyg : y.track ∈ s.guard := hsub y hys
    have hne : y.track ≠ x.track := by
      intro he
      exact hndc.1 (he ▸ List.mem_map_of_mem LyricsItem.track hy)
    exact (List.mem_erase_of_ne hne).mpr hyg

theorem enqueueGuarded_mem_guard {ι α : Type} [DecidableEq α] (tgt : ι → α)
    (s : GuardedQueue ι α) (x : ι) (h : tgt x ∈ s.guard) :
    enqueueGuarded tgt s x = s := by
  simp [enqueueGuarded, h]

theorem enqueueAll_mem_guard {ι α : Type} [DecidableEq α] (tgt : ι → α)
    (s : GuardedQueue ι α) (t : α) (xs : List ι)
    (hxs : ∀ y ∈ xs, tgt y = t) (h : t ∈ s.guard) :
    enqueueAll tgt s xs = s := by
  induction xs with
  | nil => rfl
  | cons x rest ih =>
    have hx : tgt x = t := hxs x (List.mem_cons_self _ _)
    unfold enqueueAll
    simp only [List.foldl_cons]
    rw [enqueueGuarded_mem_guard tgt s x (hx ▸ h)]
    exact ih fun y hy => hxs y (List.mem_cons_of_mem _ hy)

theorem pendingCount_eq_zero {ι α : Type} [DecidableEq α] (tgt : ι → α)
    (s : GuardedQueue ι α) (t : α) (h : QueueInv tgt s) (hg : t ∉ s.guard) :
    pendingCount tgt s t = 0 := by
  unfold pendingCount
  rw [List.count_eq_zero]
  intro hmem
  obtain ⟨y, hy, hyt⟩ := List.mem_map.mp hmem
  exact hg (hyt ▸ h.2 y hy)

/-- C1: for every queue (inbox-import, library-regen, cover-fetch,
lyrics-fetch) and every target, a state satisfying the dedup invariant has at
most one pending item per target; the guarded enqueue, the FIFO
dequeue-and-discard, the drain-and-clear dequeue and the lyrics
pop-min-and-discard all preserve the invariant; and enqueuing the same target
any number of times before it is dequeued yields exactly one pending item for
that target. -/
theorem C1_dedup_guard {ι : Type} (tgt : ι → String) (s : GuardedQueue ι String)
    (hInv : QueueInv tgt s) :
    (∀ t, pendingCount tgt s t ≤ 1) ∧
    (∀ x, QueueInv tgt (enqueueGuarded tgt s x)) ∧
    QueueInv tgt (dequeueDiscard tgt s).2 ∧
    QueueInv tgt (drainClear s) ∧
    (∀ q : GuardedQueue LyricsItem String, QueueInv LyricsItem.track q →
      QueueInv LyricsItem.track (dequeueMinDiscard q).2) ∧
    (∀ t (xs : List ι), xs ≠ [] → (∀ y ∈ xs, tgt y = t) → t ∉ s.guard →
      pendingCount tgt (enqueueAll tgt s xs) t = 1) := by
  refine ⟨?_, ?_, ?_, ?_, ?_, ?_⟩
  · intro t
    exact List.nodup_iff_count_le_one.mp hInv.1 t
  · intro x
    exact queueInv_enqueue tgt s x hInv
  · exact queueInv_dequeueDiscard tgt s hInv
  · exact ⟨List.nodup_nil, by intro x hx; simp [drainClear] at hx⟩
  · intro q hq
    exact queueInv_dequeueMinDiscard q hq
  · intro t xs hne hall hg
    rcases xs with _ | ⟨x, rest⟩
    · exact absurd rfl hne
    · have hx : tgt x = t := hall x (List.mem_cons_self _ _)
      have hstep : enqueueGuarded tgt s x =
          ⟨s.items ++ [x], tgt x :: s.guard⟩ := by
        unfold enqueueGuarded
        rw [if_neg (hx ▸ hg)]
      have hrest : enqueueAll tgt (enqueueGuarded tgt s x) rest =
          enqueueGuarded tgt s x := by
        refine enqueueAll_mem_guard tgt _ t rest
          (fun y hy => hall y (List.mem_cons_of_mem _ hy)) ?_
        rw [hstep, hx]
        exact List.mem_cons_self _ _
      have hz : pendingCount tgt s t = 0 := pendingCount_eq_zero tgt s t hInv hg
      unfold enqueueAll at hrest ⊢
      simp only [List.foldl_cons]
      rw [hrest, hstep]
      unfold pendingCount at hz ⊢
      simp only [List.map_append, List.map_cons, List.map_nil,
        List.count_append, hz, hx]
      simp [List.count_singleton]

/-- Witness for C1 at a concrete instance: two notifications of one target on
a fresh queue leave exactly one pending item. -/
theorem C1_dedup_guard_witness :
    pendingCount (fun t : String => t)
      (enqueueAll (fun t : String => t)
        (⟨[], []⟩ : GuardedQueue String String) ["a", "a"]) "a" = 1 :=
  (C1_dedup_guard (fun t : String => t) ⟨[], []⟩
      ⟨by decide, by intro x hx; simp at hx⟩).2.2.2.2.2
    "a" ["a", "a"] (by decide) (by decide) (by decide)

/-- C2: when the import lease is held by another holder, `try_acquire` with
timeout 0 returns failure immediately, performing zero blocking sleeps; the
inbox worker then logs the failure at warning level and drops the triggering
work item — the import action is not invoked, nothing is enqueued and the
item is not requeued. -/
theorem C2_lease_timeout_zero (free : Nat → Bool) (importOk : Bool)
    (importOut : String) (h : free 0 = false) :
    tryAcquire free 0 = (false, 0) ∧
    inboxProcess free importOk importOut =
      { importInvoked := false
        logs := [("warning", "Import already in progress - skipping")]
        requeued := false
        libEnqueued := false } := by
  have h1 : tryAcquire free 0 = (false, 0) := by
    unfold tryAcquire
    simp [h]
  refine ⟨h1, ?_⟩
  unfold inboxProcess
  rw [h1]
  simp

/-- Witness for C2: with the lock held by another process, the concrete call
fails at once and the worker records only the warning. -/
theorem C2_lease_timeout_zero_witness :
    tryAcquire (fun _ => false) 0 = (false, 0) ∧
    inboxProcess (fun _ => false) true "done" =
      { importInvoked := false
        logs := [("warning", "Import already in progress - skipping")]
        requeued := false
        libEnqueued := false } :=
  C2_lease_timeout_zero (fun _ => false) true "done" rfl

theorem canMakeLyricsRequest_queue_eq (s : LyricsState) (now : Int) :
    (canMakeLyricsRequest s now).2.queue = s.queue := by
  unfold canMakeLyricsRequest
  split <;> rfl

/-- C3: the admission check of the lyrics rate limiter returns true exactly
when no cooldown is active (no quota-exceeded timestamp within the last
`LYRICS_RETRY_DELAY` seconds) and strictly fewer than `LYRICS_RATE_LIMIT`
request timestamps fall within the trailing 60 second window; and whenever
the check returns false the worker defers — the iteration ends in the
`deferred` event with the queue untouched, so no item is dropped. -/
theorem C3_rate_limit_admission (s : LyricsState) (now : Int) :
    ((canMakeLyricsRequest s now).1 = true ↔
      ((∀ t, s.last429 = some t → LYRICS_RETRY_DELAY ≤ now - t) ∧
        s.requestTimes.countP (fun t => decide (now - t < 60)) <
          LYRICS_RATE_LIMIT)) ∧
    ((canMakeLyricsRequest s now).1 = false → ∀ env,
      (lyricsStep s now env).2 = .deferred ∧
      (lyricsStep s now env).1.queue = s.queue) := by
  constructor
  · unfold canMakeLyricsRequest
    by_cases hc : cooldownActive s.last429 now = true
    · rw [if_pos hc]
      simp only [Bool.false_eq_true, false_iff, not_and]
      intro hno
      rcases h429 : s.last429 with _ | t
      · rw [h429] at hc
        simp [cooldownActive] at hc
      · rw [h429] at hc
        simp only [cooldownActive, decide_eq_true_eq] at hc
        have := hno t h429
        omega
    · rw [if_neg hc]
      simp only [decide_eq_true_eq]
      constructor
      · intro hlt
        refine ⟨?_, ?_⟩
        · intro t ht
          rw [ht] at hc
          simp only [cooldownActive, decide_eq_true_eq] at hc
          omega
        · rwa [List.countP_eq_length_filter]
      · intro hcc
        rw [List.countP_eq_length_filter] at hcc
        exact hcc.2
  · intro hf env
    unfold lyricsStep
    rw [if_pos hf]
    exact ⟨rfl, canMakeLyricsRequest_queue_eq s now⟩

/-- Witness for C3: with a quota-exceeded timestamp 10 seconds old the check
denies, and the concrete worker iteration defers with its queue intact. -/
theorem C3_rate_limit_admission_witness :
    (lyricsStep ⟨[⟨2, 0, "t"⟩], ["t"], [], [], some 100⟩ 110
        (fun _ => ⟨true, false, 0, ""⟩)).2 = .deferred ∧
    (lyricsStep ⟨[⟨2, 0, "t"⟩], ["t"], [], [], some 100⟩ 110
        (fun _ => ⟨true, false, 0, ""⟩)).1.queue =
      (⟨[⟨2, 0, "t"⟩], ["t"], [], [], some 100⟩ : LyricsState).queue :=
  (C3_rate_limit_admission ⟨[⟨2, 0, "t"⟩], ["t"], [], [], some 100⟩ 110).2
    (by decide) (fun _ => ⟨true, false, 0, ""⟩)

theorem canMakeLyricsRequest_preserves (s : LyricsState) (now : Int) :
    (canMakeLyricsRequest s now).2.queue = s.queue ∧
    (canMakeLyricsRequest s now).2.queued = s.queued ∧
    (canMakeLyricsRequest s now).2.failed = s.failed ∧
    (canMakeLyricsRequest s now).2.last429 = s.last429 := by
  unfold canMakeLyricsRequest
  split <;> exact ⟨rfl, rfl, rfl, rfl⟩

theorem lyricsStep_eq_process (s0 : LyricsState) (now : Int)
    (env : String → TrackEnv) (item : LyricsItem) (rest : List LyricsItem)
    (hgate : (canMakeLyricsRequest s0 now).1 = true)
    (hpop : popMinItem (canMakeLyricsRequest s0 now).2.queue =
      some (item, rest)) :
    lyricsStep s0 now env =
      processLyricsItem
        { (canMakeLyricsRequest s0 now).2 with
            queue := rest
            queued := ((canMakeLyricsRequest s0 now).2.queued).erase item.track }
        item now (env item.track) := by
  unfold lyricsStep
  rw [if_neg (by simp [hgate]), hpop]

theorem lookupFailed_setFailed (f : List (String × Nat)) (t : String)
    (n : Nat) : lookupFailed (setFailed f t n) t = n := by
  unfold lookupFailed setFailed
  rw [List.find?_cons_of_pos _ (by simp)]

theorem processLyricsItem_quota (s : LyricsState) (item : LyricsItem)
    (now : Int) (e : TrackEnv)
    (hex : e.trackExists = true) (hlyr : e.hasLyrics = false)
    (hretry : lookupFailed s.failed item.track < LYRICS_MAX_RETRIES)
    (hquota : isQuotaExceeded e.fetchStdout = true)
    (hmem : item.track ∉ s.queued) :
    processLyricsItem s item now e =
      ({ queue := s.queue ++ [⟨item.priority + 1, now, item.track⟩]
         queued := item.track :: s.queued
         failed := setFailed s.failed item.track
           (lookupFailed s.failed item.track + 1)
         requestTimes := s.requestTimes ++ [now]
         last429 := some now }, .fetched item.track) := by
  unfold processLyricsItem
  rw [if_neg (by simp [hex]), if_neg (by simp [hlyr]),
    if_neg (not_le.mpr hretry), if_pos hquota, if_neg hmem]

/-- C4: when a lyrics fetch produces output containing the quota marker, the
worker sets the global cooldown to start at the current instant — the
admission check is blocked exactly while less than
`LYRICS_RETRY_DELAY = 60` seconds have elapsed — and requeues the same target
into the lyrics queue with priority incremented by 1 and its recorded failure
count incremented by 1. -/
theorem C4_quota_cooldown_requeue (s0 : LyricsState) (now : Int)
    (env : String → TrackEnv) (item : LyricsItem) (rest : List LyricsItem)
    (hgate : (canMakeLyricsRequest s0 now).1 = true)
    (hpop : popMinItem (canMakeLyricsRequest s0 now).2.queue =
      some (item, rest))
    (hnodup : s0.queued.Nodup)
    (hex : (env item.track).trackExists = true)
    (hlyr : (env item.track).hasLyrics = false)
    (hretry : lookupFailed s0.failed item.track < LYRICS_MAX_RETRIES)
    (hquota : isQuotaExceeded (env item.track).fetchStdout = true) :
    (lyricsStep s0 now env).2 = .fetched item.track ∧
    (lyricsStep s0 now env).1.last429 = some now ∧
    (∀ u, cooldownActive (lyricsStep s0 now env).1.last429 u = true ↔
      u - now < LYRICS_RETRY_DELAY) ∧
    (⟨item.priority + 1, now, item.track⟩ : LyricsItem) ∈
      (lyricsStep s0 now env).1.queue ∧
    lookupFailed (lyricsStep s0 now env).1.failed item.track =
      lookupFailed s0.failed item.track + 1 := by
  obtain ⟨hq, hqd, hfl, h429⟩ := canMakeLyricsRequest_preserves s0 now
  have hmem : item.track ∉ ((canMakeLyricsRequest s0 now).2.queued).erase
      item.track := by
    rw [hqd]
    intro hin
    exact ((hnodup.mem_erase_iff).mp hin).1 rfl
  have hstep := lyricsStep_eq_process s0 now env item rest hgate hpop
  have hproc := processLyricsItem_quota
    { (canMakeLyricsRequest s0 now).2 with
        queue := rest
        queued := ((canMakeLyricsRequest s0 now).2.queued).erase item.track }
    item now (env item.track) hex hlyr (by simpa [hfl] using hretry) hquota hmem
  rw [hstep, hproc]
  refine ⟨rfl, rfl, ?_, ?_, ?_⟩
  · intro u
    simp [cooldownActive]
  · simp
  · rw [lookupFailed_setFailed]
    simp [hfl]

/-- Witness for C4: a concrete 429 output requeues the popped track at
priority 3 with one recorded failure and starts the cooldown at the current
instant. -/
theorem C4_quota_cooldown_requeue_witness :
    (lyricsStep ⟨[⟨2, 5, "t"⟩], ["t"], [], [], none⟩ 100
        (fun _ => ⟨true, false, 1, "HTTP 429"⟩)).2 = .fetched "t" ∧
    (lyricsStep ⟨[⟨2, 5, "t"⟩], ["t"], [], [], none⟩ 100
        (fun _ => ⟨true, false, 1, "HTTP 429"⟩)).1.last429 = some 100 ∧
    (∀ u, cooldownActive
        (lyricsStep ⟨[⟨2, 5, "t"⟩], ["t"], [], [], none⟩ 100
          (fun _ => ⟨true, false, 1, "HTTP 429"⟩)).1.last429 u = true ↔
      u - 100 < LYRICS_RETRY_DELAY) ∧
    (⟨3, 100, "t"⟩ : LyricsItem) ∈
      (lyricsStep ⟨[⟨2, 5, "t"⟩], ["t"], [], [], none⟩ 100
        (fun _ => ⟨true, false, 1, "HTTP 429"⟩)).1.queue ∧
    lookupFailed
      (lyricsStep ⟨[⟨2, 5, "t"⟩], ["t"], [], [], none⟩ 100
        (fun _ => ⟨true, false, 1, "HTTP 429"⟩)).1.failed "t" =
      lookupFailed ([] : List (String × Nat)) "t" + 1 :=
  C4_quota_cooldown_requeue ⟨[⟨2, 5, "t"⟩], ["t"], [], [], none⟩ 100
    (fun _ => ⟨true, false, 1, "HTTP 429"⟩) ⟨2, 5, "t"⟩ []
    (by decide) (by decide) (by decide) rfl rfl (by decide) (by decide)

theorem find?_filter_of_imp {α : Type} (l : List α) (p q : α → Bool)
    (h : ∀ x, p x = true → q x = true) :
    (l.filter q).find? p = l.find? p := by
  induction l with
  | nil => rfl
  | cons a l ih =>
    by_cases hq : q a = true
    · rw [List.filter_cons_of_pos hq]
      by_cases hp : p a = true
      · rw [List.find?_cons_of_pos _ hp, List.find?_cons_of_pos _ hp]
      · rw [List.find?_cons_of_neg _ hp, List.find?_cons_of_neg _ hp, ih]
    · rw [List.filter_cons_of_neg hq, ih,
        List.find?_cons_of_neg _ (fun hpa => hq (h a hpa))]

theorem lookupFailed_setFailed_ne (f : List (String × Nat)) (t t2 : String)
    (n : Nat) (hne : t ≠ t2) :
    lookupFailed (setFailed f t2 n) t = lookupFailed f t := by
  unfold lookupFailed setFailed
  rw [List.find?_cons_of_neg _
      (by simp only [decide_eq_true_eq]; exact fun h => hne h.symm),
    find?_filter_of_imp]
  intro x hx
  simp only [decide_eq_true_eq] at hx ⊢
  rw [hx]
  exact hne

theorem lookupFailed_removeFailed_ne (f : List (String × Nat)) (t t2 : String)
    (hne : t ≠ t2) :
    lookupFailed (removeFailed f t2) t = lookupFailed f t := by
  unfold lookupFailed removeFailed
  rw [find?_filter_of_imp]
  intro x hx
  simp only [decide_eq_true_eq] at hx ⊢
  rw [hx]
  exact hne

theorem processLyricsItem_failed_preserved (s : LyricsState)
    (item : LyricsItem) (now : Int) (e : TrackEnv) (t : String)
    (h : LYRICS_MAX_RETRIES ≤ lookupFailed s.failed t) :
    LYRICS_MAX_RETRIES ≤
      lookupFailed (processLyricsItem s item now e).1.failed t := by
  unfold processLyricsItem
  by_cases h1 : e.trackExists = false
  · rw [if_pos h1]; exact h
  rw [if_neg h1]
  by_cases h2 : e.hasLyrics = true
  · rw [if_pos h2]; exact h
  rw [if_neg h2]
  by_cases h3 : LYRICS_MAX_RETRIES ≤ lookupFailed s.failed item.track
  · rw [if_pos h3]; exact h
  rw [if_neg h3]
  have hne : t ≠ item.track := by
    intro he
    rw [he] at h
    exact h3 h
  by_cases h4 : isQuotaExceeded e.fetchStdout = true
  · rw [if_pos h4]
    by_cases h5 : item.track ∈ s.queued
    · rw [if_pos h5]
      simpa [lookupFailed_setFailed_ne _ _ _ _ hne] using h
    · rw [if_neg h5]
      simpa [lookupFailed_setFailed_ne _ _ _ _ hne] using h
  rw [if_neg h4]
  by_cases h6 : e.fetchReturncode = 0 ∨
      strContainsLower e.fetchStdout "lyrics found" = true
  · rw [if_pos h6]
    simpa [lookupFailed_removeFailed_ne _ _ _ hne] using h
  rw [if_neg h6]
  by_cases h7 : strContainsLower e.fetchStdout "not found" = false
  · rw [if_pos h7]
    simpa [lookupFailed_setFailed_ne _ _ _ _ hne] using h
  · rw [if_neg h7]
    exact h

theorem processLyricsItem_fetched_retry_lt (s : LyricsState)
    (item : LyricsItem) (now : Int) (e : TrackEnv) (t : String)
    (hev : (processLyricsItem s item now e).2 = .fetched t) :
    lookupFailed s.failed item.track < LYRICS_MAX_RETRIES ∧
      t = item.track := by
  unfold processLyricsItem at hev
  split_ifs at hev with h1 h2 h3 h4 h5 h6 h7 <;>
    simp only [LyricsEvent.fetched.injEq] at hev <;>
    exact ⟨not_le.mp h3, hev.symm⟩

theorem processLyricsItem_eligible_fetches (s : LyricsState)
    (item : LyricsItem) (now : Int) (e : TrackEnv)
    (hex : e.trackExists = true) (hlyr : e.hasLyrics = false)
    (hretry : lookupFailed s.failed item.track < LYRICS_MAX_RETRIES) :
    (processLyricsItem s item now e).2 = .fetched item.track := by
  unfold processLyricsItem
  rw [if_neg (by simp [hex]), if_neg (by simp [hlyr]),
    if_neg (not_le.mpr hretry)]
  split_ifs <;> rfl

theorem lyricsStep_fetched_retry_lt (s0 : LyricsState) (now : Int)
    (env : String → TrackEnv) (t : String)
    (hev : (lyricsStep s0 now env).2 = .fetched t) :
    lookupFailed s0.failed t < LYRICS_MAX_RETRIES := by
  unfold lyricsStep at hev
  by_cases hg : (canMakeLyricsRequest s0 now).1 = false
  · rw [if_pos hg] at hev
    exact absurd hev (by simp)
  rw [if_neg hg] at hev
  rcases hpop : popMinItem (canMakeLyricsRequest s0 now).2.queue with
    _ | ⟨item, rest⟩
  · rw [hpop] at hev
    exact absurd hev (by simp)
  · rw [hpop] at hev
    obtain ⟨hlt, ht⟩ := processLyricsItem_fetched_retry_lt _ _ _ _ _ hev
    have hfl := (canMakeLyricsRequest_preserves s0 now).2.2.1
    rw [ht]
    simpa [hfl] using hlt

theorem lyricsStep_failed_preserved (s0 : LyricsState) (now : Int)
    (env : String → TrackEnv) (t : String)
    (h : LYRICS_MAX_RETRIES ≤ lookupFailed s0.failed t) :
    LYRICS_MAX_RETRIES ≤ lookupFailed (lyricsStep s0 now env).1.failed t := by
  have hfl := (canMakeLyricsRequest_preserves s0 now).2.2.1
  unfold lyricsStep
  by_cases hg : (canMakeLyricsRequest s0 now).1 = false
  · rw [if_pos hg]
    simpa [hfl] using h
  rw [if_neg hg]
  rcases hpop : popMinItem (canMakeLyricsRequest s0 now).2.queue with
    _ | ⟨item, rest⟩
  · simpa [hfl] using h
  · refine processLyricsItem_failed_preserved _ _ _ _ _ ?_
    simpa [hfl] using h

theorem lyricsRun_no_fetch (s : LyricsState) (t : String)
    (h : LYRICS_MAX_RETRIES ≤ lookupFailed s.failed t) :
    ∀ trace, LyricsEvent.fetched t ∉ (lyricsRun s trace).2 := by
  intro trace
  induction trace generalizing s with
  | nil => simp [lyricsRun]
  | cons p rest ih =>
    rcases p with ⟨now, env⟩
    simp only [lyricsRun, List.mem_cons]
    rintro (hev | hev)
    · have := lyricsStep_fetched_retry_lt s now env t hev.symm
      omega
    · exact ih (lyricsStep s now env).1
        (lyricsStep_failed_preserved s now env t h) hev

/-- C5: once the recorded failure count of a lyrics target has reached
`LYRICS_MAX_RETRIES = 3`, no run of the worker ever again emits a fetch event
for that target — every subsequent dequeue skips it while the ledger is
untouched — whereas a dequeued target with fewer recorded failures (existing
on disk and still lacking lyrics) is fetched. -/
theorem C5_retry_ceiling (s : LyricsState) (t : String) :
    (LYRICS_MAX_RETRIES ≤ lookupFailed s.failed t →
      ∀ trace, LyricsEvent.fetched t ∉ (lyricsRun s trace).2) ∧
    (∀ now env item rest,
      (canMakeLyricsRequest s now).1 = true →
      popMinItem (canMakeLyricsRequest s now).2.queue = some (item, rest) →
      item.track = t →
      (env t).trackExists = true →
      (env t).hasLyrics = false →
      lookupFailed s.failed t < LYRICS_MAX_RETRIES →
      (lyricsStep s now env).2 = .fetched t) := by
  constructor
  · exact fun h => lyricsRun_no_fetch s t h
  · intro now env item rest hgate hpop htrack hex hlyr hretry
    rw [lyricsStep_eq_process s now env item rest hgate hpop, ← htrack] at *
    have hfl := (canMakeLyricsRequest_preserves s now).2.2.1
    rw [processLyricsItem_eligible_fetches _ item now (env item.track)
      hex hlyr (by simpa [hfl] using hretry)]

/-- Witness for C5: with three recorded failures for the concrete track, a
one-iteration run emits no fetch event for it. -/
theorem C5_retry_ceiling_witness :
    LyricsEvent.fetched "t" ∉
      (lyricsRun ⟨[⟨2, 0, "t"⟩], ["t"], [("t", 3)], [], none⟩
        [(50, fun _ => ⟨true, false, 0, "ok"⟩)]).2 :=
  (C5_retry_ceiling ⟨[⟨2, 0, "t"⟩], ["t"], [("t", 3)], [], none⟩ "t").1
    (by decide) [(50, fun _ => ⟨true, false, 0, "ok"⟩)]

/-- C6: a library-stats read without force-refresh at cache age strictly
below the TTL returns the cached payload unchanged without recomputing; a
read at age at or above the TTL, a read with force-refresh set, and a read
right after an invalidation each recompute, store the fresh payload with the
current timestamp, and return it; invalidation always empties the payload
cell, is idempotent, and is a no-op on an already empty cache. -/
theorem C6_cache_ttl {α : Type} (s : CacheState α) (now t : Int)
    (p fresh : α) :
    (s.cache = some p → s.cacheTime = some t →
      now - t < LIBRARY_STATS_CACHE_SECONDS →
      getLibraryStats s now false fresh = (p, s)) ∧
    (s.cacheTime = some t → LIBRARY_STATS_CACHE_SECONDS ≤ now - t →
      getLibraryStats s now false fresh = (fresh, ⟨some fresh, some now⟩)) ∧
    getLibraryStats s now true fresh = (fresh, ⟨some fresh, some now⟩) ∧
    getLibraryStats (invalidateLibraryStatsCache s) now false fresh =
      (fresh, ⟨some fresh, some now⟩) ∧
    (invalidateLibraryStatsCache s).cache = none ∧
    invalidateLibraryStatsCache (invalidateLibraryStatsCache s) =
      invalidateLibraryStatsCache s ∧
    (s.cache = none → invalidateLibraryStatsCache s = s) := by
  refine ⟨?_, ?_, ?_, ?_, ?_, ?_, ?_⟩
  · intro h1 h2 h3
    simp [getLibraryStats, cachedPayload, h1, h2, h3]
  · intro h2 hge
    rcases hc : s.cache with _ | q
    · simp [getLibraryStats, cachedPayload, hc]
    · simp [getLibraryStats, cachedPayload, hc, h2, not_lt.mpr hge]
  · simp [getLibraryStats]
  · unfold invalidateLibraryStatsCache
    by_cases hs : s.cache.isSome
    · simp [hs, getLibraryStats, cachedPayload]
    · rw [if_neg hs]
      rcases hc : s.cache with _ | q
      · simp [getLibraryStats, cachedPayload, hc]
      · exact absurd (by simp [hc]) hs
  · unfold invalidateLibraryStatsCache
    by_cases hs : s.cache.isSome
    · simp [hs]
    · rw [if_neg hs]
      exact Option.not_isSome_iff_eq_none.mp hs
  · unfold invalidateLibraryStatsCache
    by_cases hs : s.cache.isSome
    · simp [hs]
    · simp [hs]
  · intro hc
    simp [invalidateLibraryStatsCache, hc]

/-- Witness for C6: a cached payload of age 10 with TTL 300 is served
unchanged. -/
theorem C6_cache_ttl_witness :
    getLibraryStats (⟨some 7, some 0⟩ : CacheState Nat) 10 false 9 =
      (7, (⟨some 7, some 0⟩ : CacheState Nat)) :=
  (C6_cache_ttl (⟨some 7, some 0⟩ : CacheState Nat) 10 0 7 9).1
    rfl rfl (by decide)

theorem itemLe_not_of_strict (a b : LyricsItem)
    (h : a.priority < b.priority ∨
      (a.priority = b.priority ∧ a.enqueuedAt < b.enqueuedAt)) :
    ¬ itemLe b a := by
  intro hba
  unfold itemLe at hba
  rcases h with h | ⟨he, ht⟩
  · rcases hba with h2 | ⟨h2, _⟩ <;> omega
  · rcases hba with h2 | ⟨h2, h3⟩
    · omega
    · rcases h3 with h3 | ⟨h3, _⟩ <;> omega

/-- C7: in the lyrics queue, an item with a strictly lower priority value is
dequeued before one with a higher priority value regardless of relative
enqueue order, and of two items with equal priority the earlier-enqueued one
is dequeued first: in the drain order of the queue the first item occupies a
strictly earlier position. -/
theorem C7_priority_order (q : List LyricsItem) (a b : LyricsItem)
    (ha : a ∈ q) (hb : b ∈ q)
    (h : a.priority < b.priority ∨
      (a.priority = b.priority ∧ a.enqueuedAt < b.enqueuedAt)) :
    ∃ i j : Nat, i < j ∧ (sortedQueue q)[i]? = some a ∧
      (sortedQueue q)[j]? = some b := by
  have hperm := List.perm_insertionSort itemLe q
  have hsort : (sortedQueue q).Pairwise itemLe :=
    List.sorted_insertionSort itemLe q
  have ha2 : a ∈ sortedQueue q := hperm.mem_iff.mpr ha
  have hb2 : b ∈ sortedQueue q := hperm.mem_iff.mpr hb
  obtain ⟨i, hi⟩ := List.mem_iff_getElem?.mp ha2
  obtain ⟨j, hj⟩ := List.mem_iff_getElem?.mp hb2
  refine ⟨i, j, ?_, hi, hj⟩
  obtain ⟨hilen, hia⟩ := List.getElem?_eq_some.mp hi
  obtain ⟨hjlen, hjb⟩ := List.getElem?_eq_some.mp hj
  by_contra hij
  rcases Nat.lt_or_ge j i with hlt | hge
  · have hrel := List.pairwise_iff_getElem.mp hsort j i hjlen hilen hlt
    rw [hia, hjb] at hrel
    exact itemLe_not_of_strict a b h hrel
  · have hij2 : i = j := le_antisymm hge (not_lt.mp hij)
    have hab : a = b := by
      rw [hij2, hj] at hi
      exact (Option.some.inj hi).symm
    rcases h with h | ⟨_, h2⟩
    · rw [hab] at h
      omega
    · rw [hab] at h2
      omega

/-- Witness for C7: a priority-1 item enqueued after a priority-2 item still
drains first. -/
theorem C7_priority_order_witness :
    ∃ i j : Nat, i < j ∧
      (sortedQueue [⟨2, 0, "b"⟩, ⟨1, 1, "a"⟩])[i]? =
        some (⟨1, 1, "a"⟩ : LyricsItem) ∧
      (sortedQueue [⟨2, 0, "b"⟩, ⟨1, 1, "a"⟩])[j]? =
        some (⟨2, 0, "b"⟩ : LyricsItem) :=
  C7_priority_order [⟨2, 0, "b"⟩, ⟨1, 1, "a"⟩] ⟨1, 1, "a"⟩ ⟨2, 0, "b"⟩
    (by decide) (by decide) (Or.inl (by decide))

/-- C8 counterexample: on an album directory offering both a local
conventionally-named image and a remote art-archive hit, the script fetches
the remote art, while a chain in the order the specification states the
stages would pick the local image — the stated stage order does not match
the code. -/
theorem C8_stage_order_counterexample :
    (fetchCoverMain ⟨false, some "m", some [1], none, some [2]⟩).1 =
      some CoverSource.archive ∧
    (specOrderCoverChain ⟨false, some "m", some [1], none, some [2]⟩).1 =
      some CoverSource.localImage ∧
    fetchCoverMain ⟨false, some "m", some [1], none, some [2]⟩ ≠
      specOrderCoverChain ⟨false, some "m", some [1], none, some [2]⟩ := by
  refine ⟨rfl, rfl, ?_⟩
  decide

/-- C8 (amended): the cover-resolution action tries its three stages in the
order (1) remote art archive keyed by the release identifier reported by the
tagging tool, (2) embedded artwork extracted from audio files, (3) probe for
conventionally-named local image files; each stage short-circuits the chain
on first success, and the winning image is always written to the target via
write-to-temp-then-atomic-rename, never by a direct in-place write. -/
theorem C8_cover_chain (env : CoverEnv) (hex : env.coverExists = false) :
    (∀ d, coverStage1 env = some d →
      fetchCoverMain env = (some .archive, writeAtomic "cover.jpg" d)) ∧
    (∀ d, coverStage1 env = none → env.embeddedData = some d →
      fetchCoverMain env = (some .embedded, writeAtomic "cover.jpg" d)) ∧
    (∀ d, coverStage1 env = none → env.embeddedData = none →
      env.localImageData = some d →
      fetchCoverMain env = (some .localImage, writeAtomic "cover.jpg" d)) ∧
    (coverStage1 env = none → env.embeddedData = none →
      env.localImageData = none → fetchCoverMain env = (none, [])) ∧
    (∀ p d, FsOp.writeDirect p d ∉ (fetchCoverMain env).2) ∧
    ((fetchCoverMain env).2 = [] ∨ ∃ d, (fetchCoverMain env).2 =
      [FsOp.writeTemp ".cover_tmp_.jpg" d,
       FsOp.rename ".cover_tmp_.jpg" "cover.jpg"]) := by
  refine ⟨?_, ?_, ?_, ?_, ?_, ?_⟩
  · intro d h1
    unfold fetchCoverMain
    rw [if_neg (by simp [hex]), h1]
  · intro d h1 h2
    unfold fetchCoverMain
    rw [if_neg (by simp [hex]), h1, h2]
  · intro d h1 h2 h3
    unfold fetchCoverMain
    rw [if_neg (by simp [hex]), h1, h2, h3]
  · intro h1 h2 h3
    unfold fetchCoverMain
    rw [if_neg (by simp [hex]), h1, h2, h3]
  · intro p d
    unfold fetchCoverMain
    rw [if_neg (by simp [hex])]
    rcases coverStage1 env with _ | d1
    · rcases env.embeddedData with _ | d2
      · rcases env.localImageData with _ | d3
        · simp
        · simp [writeAtomic]
      · simp [writeAtomic]
    · simp [writeAtomic]
  · unfold fetchCoverMain
    rw [if_neg (by simp [hex])]
    rcases coverStage1 env with _ | d1
    · rcases env.embeddedData with _ | d2
      · rcases env.localImageData with _ | d3
        · exact Or.inl rfl
        · exact Or.inr ⟨d3, rfl⟩
      · exact Or.inr ⟨d2, rfl⟩
    · exact Or.inr ⟨d1, rfl⟩

/-- Witness for C8 (amended): with a release id and an archive hit the
archive stage wins and one temp-write plus one rename is performed. -/
theorem C8_cover_chain_witness :
    fetchCoverMain ⟨false, some "m", some [1], none, some [2]⟩ =
      (some CoverSource.archive, writeAtomic "cover.jpg" [1]) :=
  (C8_cover_chain ⟨false, some "m", some [1], none, some [2]⟩ rfl).1 [1] rfl

/-- C9 counterexample: after appending "first" and then "second", the tail
endpoint returns the entries newest first — ids `[2, 1]` — which is the
reverse of insertion order, so the "preserving insertion order" part of the
claim fails on the code. -/
theorem C9_insertion_order_counterexample :
    (getRecentLogs
        (addWatcherLog (addWatcherLog ⟨[], 0⟩ 1 "info" "first")
          2 "info" "second") none 50).map LogEntry.id = [2, 1] ∧
    ¬ List.Pairwise (fun a b : Nat => a < b)
      ((getRecentLogs
        (addWatcherLog (addWatcherLog ⟨[], 0⟩ 1 "info" "first")
          2 "info" "second") none 50).map LogEntry.id) := by
  refine ⟨?_, ?_⟩ <;> decide

theorem pairwise_desc_getLast_le :
    ∀ l : List LogEntry, List.Pairwise (fun a b => b.id < a.id) l →
      ∀ hne : l ≠ [], ∀ e ∈ l, (l.getLast hne).id ≤ e.id := by
  intro l
  induction l with
  | nil => intro _ hne; exact absurd rfl hne
  | cons a rest ih =>
    intro hp hne e he
    cases rest with
    | nil =>
      simp only [List.mem_singleton] at he
      subst he
      exact le_refl _
    | cons b bs =>
      have hgl : (a :: b :: bs).getLast hne = (b :: bs).getLast (by simp) :=
        rfl
      rw [hgl]
      rcases List.mem_cons.mp he with he2 | he2
      · subst he2
        have hmem := List.getLast_mem (l := b :: bs) (by simp)
        have hlt := (List.pairwise_cons.mp hp).1 _ hmem
        omega
      · exact ih (List.pairwise_cons.mp hp).2 (by simp) e he2

/-- C9 (amended): each append assigns the fresh id `last_log_id + 1`,
strictly greater than every stored id (ids are never reused and the counter
never reset), inserts the new entry at the head, preserves the log invariant
and the bound of `MAX_WATCHER_LOGS` entries, evicting the entry with the
least id — the oldest — when the bound would be exceeded; the tail endpoint
returns only entries with id greater than `since_id` when one is given, the
first `limit` stored entries (the most recent ones) when not, and its output
is always in newest-first (descending id) order, the reverse of insertion
order. -/
theorem C9_event_log (s : LogState) (ts : Int) (level message : String)
    (sinceId : Option Nat) (i limit : Nat) (hinv : LogInv s) :
    (addWatcherLog s ts level message).lastId = s.lastId + 1 ∧
    (∃ rest, (addWatcherLog s ts level message).logs =
      (⟨s.lastId + 1, ts, level, message⟩ : LogEntry) :: rest) ∧
    (∀ e ∈ s.logs, e.id < s.lastId + 1) ∧
    LogInv (addWatcherLog s ts level message) ∧
    (s.logs.length = MAX_WATCHER_LOGS →
      (addWatcherLog s ts level message).logs =
        (⟨s.lastId + 1, ts, level, message⟩ : LogEntry) :: s.logs.dropLast ∧
      ∀ hne : s.logs ≠ [], ∀ e ∈ s.logs, (s.logs.getLast hne).id ≤ e.id) ∧
    (∀ e ∈ getRecentLogs s (some i) limit, i < e.id) ∧
    getRecentLogs s none limit = s.logs.take limit ∧
    List.Pairwise (fun a b => b.id < a.id)
      (getRecentLogs s sinceId limit) := by
  obtain ⟨hpw, hle, hlen⟩ := hinv
  have hfresh : ∀ e ∈ s.logs, e.id < s.lastId + 1 := by
    intro e he
    have := hle e he
    omega
  have hgrown : List.Pairwise (fun a b => b.id < a.id)
      ((⟨s.lastId + 1, ts, level, message⟩ : LogEntry) :: s.logs) :=
    List.pairwise_cons.mpr ⟨hfresh, hpw⟩
  refine ⟨rfl, ?_, hfresh, ?_, ?_, ?_, rfl, ?_⟩
  · unfold addWatcherLog
    by_cases hb : MAX_WATCHER_LOGS <
        ((⟨s.lastId + 1, ts, level, message⟩ : LogEntry) :: s.logs).length
    · rw [if_pos hb]
      rcases hl : s.logs with _ | ⟨y, ys⟩
      · rw [hl] at hb
        simp [MAX_WATCHER_LOGS] at hb
      · exact ⟨(y :: ys).dropLast, rfl⟩
    · rw [if_neg hb]
      exact ⟨s.logs, rfl⟩
  · unfold addWatcherLog LogInv
    by_cases hb : MAX_WATCHER_LOGS <
        ((⟨s.lastId + 1, ts, level, message⟩ : LogEntry) :: s.logs).length
    · rw [if_pos hb]
      refine ⟨hgrown.sublist (List.dropLast_sublist _), ?_, ?_⟩
      · intro e he
        have he2 := (List.dropLast_sublist _).subset he
        rcases List.mem_cons.mp he2 with h | h
        · subst h
          exact le_refl _
        · have := hle e h
          show e.id ≤ s.lastId + 1
          omega
      · rw [List.length_dropLast]
        simp only [List.length_cons]
        omega
    · rw [if_neg hb]
      refine ⟨hgrown, ?_, ?_⟩
      · intro e he
        rcases List.mem_cons.mp he with h | h
        · subst h
          exact le_refl _
        · have := hle e h
          show e.id ≤ s.lastId + 1
          omega
      · simp only [List.length_cons] at hb ⊢
        omega
  · intro hfull
    constructor
    · unfold addWatcherLog
      rw [if_pos (by simp [hfull, MAX_WATCHER_LOGS])]
      rcases hl : s.logs with _ | ⟨y, ys⟩
      · rw [hl] at hfull
        simp [MAX_WATCHER_LOGS] at hfull
      · rfl
    · intro hne
      exact pairwise_desc_getLast_le s.logs hpw hne
  · intro e he
    have he2 := List.mem_of_mem_take he
    have := List.of_mem_filter he2
    simpa using this
  · rcases sinceId with _ | i2
    · exact hpw.sublist (List.take_sublist _ _)
    · exact hpw.sublist
        ((List.take_sublist _ _).trans (List.filter_sublist _))

/-- Witness for C9 (amended): a concrete append on a two-entry log takes the
counter from 2 to 3. -/
theorem C9_event_log_witness :
    (addWatcherLog ⟨[⟨2, 2, "w", "b"⟩, ⟨1, 1, "w", "a"⟩], 2⟩
      3 "w" "c").lastId = 3 :=
  (C9_event_log ⟨[⟨2, 2, "w", "b"⟩, ⟨1, 1, "w", "a"⟩], 2⟩ 3 "w" "c"
    none 0 50 ⟨by decide, by decide, by decide⟩).1

/-- C10: the library file-serving endpoint serves a file only when the
resolved absolute path lies within the `/music/library` base directory; any
request whose resolution escapes the base (for example by `..` traversal) is
answered 403 regardless of the state of the filesystem — no file oracle is
consulted — and a contained path that is not an existing regular file is
answered 404. -/
theorem C10_path_containment (p : RequestPath)
    (isFile : List String → Bool) :
    (∀ q, serveLibraryFile p isFile = .served q →
      LIBRARY_BASE <+: q ∧ isFile q = true) ∧
    (¬ LIBRARY_BASE <+: resolveComponents (joinedWithBase p) →
      ∀ g, serveLibraryFile p g = .forbidden) ∧
    (LIBRARY_BASE <+: resolveComponents (joinedWithBase p) →
      isFile (resolveComponents (joinedWithBase p)) = false →
      serveLibraryFile p isFile = .notFound) := by
  refine ⟨?_, ?_, ?_⟩
  · intro q hq
    unfold serveLibraryFile at hq
    by_cases h1 : LIBRARY_BASE <+: resolveComponents (joinedWithBase p)
    · rw [if_pos h1] at hq
      by_cases h2 : isFile (resolveComponents (joinedWithBase p)) = true
      · rw [if_pos h2] at hq
        simp only [ServeResult.served.injEq] at hq
        rw [← hq]
        exact ⟨h1, h2⟩
      · rw [if_neg h2] at hq
        exact absurd hq (by simp)
    · rw [if_neg h1] at hq
      exact absurd hq (by simp)
  · intro h1 g
    unfold serveLibraryFile
    rw [if_neg h1]
  · intro h1 h2
    unfold serveLibraryFile
    rw [if_pos h1, if_neg (by simp [h2])]

/-- Witness for C10: the request `../../etc/passwd` resolves to
`/etc/passwd`, outside the base, and is answered 403 even when the
filesystem oracle reports every path as an existing file. -/
theorem C10_path_containment_witness :
    serveLibraryFile ⟨false, ["..", "..", "etc", "passwd"]⟩ (fun _ => true) =
      ServeResult.forbidden :=
  (C10_path_containment ⟨false, ["..", "..", "etc", "passwd"]⟩
      (fun _ => true)).2.1 (by decide) (fun _ => true)

end BeetsOrch
